import Mathlib

/-!
FastSpawn: the native spawn binding of `ext/fastspawn.c`.

A shallow embedding of the two methods the extension registers on the module
`FastSpawn`, namely `_vspawn` (`rb_fastspawn_vspawn`, vfork followed by execvp) and
`_pspawn` (`rb_fastspawn_pspawn`, posix_spawnp), together with the hash iterator
`fastspawn_file_actions_addclose_iter` that turns the option hash into file actions.

The C functions talk to the Ruby runtime and to libc.  Every such call is recorded, in
program order, in a trace of `Call`s, and what the operating system answers (the value
`vfork` returns, whether `execvp` returns, the status of `posix_spawnp`) is a parameter of
the model, the structure `OS`.  A run of a function follows one process: the parent when
`vfork` returns a positive value, the child when it returns zero.
-/

set_option autoImplicit false

namespace FastSpawn

/-! ## Ruby values -/

/-- Ruby values the binding can be handed: `nil`, a Fixnum, a Symbol (given by the name it
was interned from) and a String (given by its bytes). -/
inductive VALUE
  | nil
  | fixnum (n : Int)
  | symbol (name : String)
  | string (bytes : String)
  deriving DecidableEq, Repr

/-- The type tags `TYPE()` reports for the values above. -/
inductive ruby_value_type
  | T_NIL
  | T_FIXNUM
  | T_SYMBOL
  | T_STRING
  deriving DecidableEq, Repr

/-- The `TYPE(obj)` of ruby.h. -/
def TYPE : VALUE → ruby_value_type
  | .nil => .T_NIL
  | .fixnum _ => .T_FIXNUM
  | .symbol _ => .T_SYMBOL
  | .string _ => .T_STRING

/-- Identifiers (`ID`, an `unsigned long`) of the runtime's symbol table.  `interned name`
is the identifier `rb_intern(name)` hands out; `number k` is the number `k` when the symbol
table has no name for it. -/
inductive ID
  | interned (name : String)
  | number (k : Nat)
  deriving DecidableEq, Repr

/-- The `rb_intern(name)` of ruby.h: the identifier of a name. -/
def rb_intern (name : String) : ID := .interned name

/-- The `INT2FIX(i)` of ruby.h. -/
def INT2FIX (i : Int) : VALUE := .fixnum i

/-- A Ruby Hash, as the list of its entries in iteration order.  The keys of a Hash are
pairwise distinct. -/
abbrev Hash := List (VALUE × VALUE)

/-- Return codes of an `st_foreach` callback (st.h). -/
inductive st_retval
  | ST_CONTINUE
  | ST_STOP
  | ST_DELETE
  deriving DecidableEq, Repr

/-! ## libc objects -/

/-- One entry of a `posix_spawn_file_actions_t`. -/
inductive FileAction
  | addclose (fd : Int)
  | addopen (fd : Int) (path : String) (oflag : Int) (mode : Int)
  deriving DecidableEq, Repr

/-- A `posix_spawn_file_actions_t`: the actions in the order they were added, which is the
order the child performs them in. -/
abbrev posix_spawn_file_actions_t := List FileAction

/-- A `posix_spawnattr_t`; only the flags are ever touched. -/
structure posix_spawnattr_t where
  flags : Int
  deriving DecidableEq, Repr

/-- The `O_WRONLY` of fcntl.h. -/
def O_WRONLY : Int := 1

/-- A C array of `char *`: `none` is the null pointer, `some s` points at the bytes `s`. -/
abbrev CArgv := List (Option String)

/-- Reading `cargv[i]`. -/
def CArgv.at (cargv : CArgv) (i : Nat) : Option String := (cargv.get? i).join

/-! ## The world outside -/

/-- Ruby exceptions the binding can raise. -/
inductive Exception
  | TypeError
  | SystemCallError (errno : Int) (mesg : String)
  deriving DecidableEq, Repr

/-- What the Ruby runtime, the platform and the operating system answer during one run. -/
structure OS where
  /-- Width in bits of `long`, the type behind `VALUE` and `ID`. -/
  long_bits : Nat
  /-- The `rb_id2name` of the runtime, the symbol table read backwards: the name whose
  identifier is the number `k`, when there is one. -/
  rb_id2name : Nat → Option String
  /-- Address of the String object that holds the given bytes (String objects with equal
  bytes are not told apart). -/
  address : String → Nat
  /-- Value of `errno` when the method is entered. -/
  errno : Int
  /-- The `environ` of the process. -/
  environ : List String
  /-- The value of the flag `POSIX_SPAWN_USEVFORK` when spawn.h defines it. -/
  POSIX_SPAWN_USEVFORK : Option Int
  /-- What `vfork()` returns in the process this run follows: negative on failure, zero in
  the child, the pid of the child in the parent. -/
  vfork_ret : Int
  /-- The `errno` a failing `vfork()` leaves. -/
  vfork_errno : Int
  /-- Answer of `execvp(file, argv)`: `none` when the image is replaced (the call does not
  return), `some e` when it returns -1 with `errno = e`. -/
  execvp : Option String → CArgv → Option Int
  /-- Answer of `posix_spawnp(&pid, file, &fops, &attr, argv, envp)`: the returned status and
  the content of `pid` afterwards. -/
  posix_spawnp : Option String → posix_spawn_file_actions_t → posix_spawnattr_t → CArgv →
    List String → Int × Int

/-- The identifier the number `k` is in the symbol table of the runtime. -/
def OS.id (os : OS) (k : Nat) : ID :=
  match os.rb_id2name k with
  | some name => .interned name
  | none => .number k

/-- What the macro `SYM2ID(x)` of ruby.h (Ruby 1.8, the headers fastspawn.c is written
against) computes: `RSHIFT((unsigned long)x, 8)`, with no test of the type of `x`.  The
word of a Symbol is `id << 8 | 0x0e`, so the shift gives its identifier back; the word of
the Fixnum `n` is `2n + 1` (in two's complement), the word of `nil` is 4 and the word of a
String is the address of the object, and the shift of any of them is read as an identifier
all the same. -/
def OS.SYM2ID (os : OS) : VALUE → ID
  | .symbol name => .interned name
  | .nil => os.id (4 >>> 8)
  | .fixnum n => os.id (((2 * n + 1) % 2 ^ os.long_bits).toNat >>> 8)
  | .string bytes => os.id (os.address bytes >>> 8)

/-- Calls into the Ruby runtime and into libc, with their arguments. -/
inductive Call
  | StringValuePtr (v : VALUE)
  | vfork
  | execvp (file : Option String) (argv : CArgv)
  | _exit (status : Int)
  | rb_sys_fail (mesg : String)
  | posix_spawn_file_actions_init
  | posix_spawn_file_actions_addclose (fd : Int)
  | posix_spawn_file_actions_addopen (fd : Int) (path : String) (oflag : Int) (mode : Int)
  | posix_spawnattr_init
  | posix_spawnattr_setflags (flags : Int)
  | posix_spawnp (file : Option String) (fops : posix_spawn_file_actions_t)
      (attr : posix_spawnattr_t) (argv : CArgv) (envp : List String)
  | posix_spawn_file_actions_destroy
  | posix_spawnattr_destroy
  deriving DecidableEq, Repr

/-- How a run of a method ends in the process it follows. -/
inductive Outcome
  /-- The method returns a value to its Ruby caller. -/
  | returned (v : VALUE)
  /-- An exception propagates to the Ruby caller. -/
  | raised (e : Exception)
  /-- The process terminated through `_exit`. -/
  | exited (status : Int)
  /-- The process image was replaced by a successful `execvp`. -/
  | replaced
  deriving DecidableEq, Repr

/-- Mutable state of a run. -/
structure State where
  errno : Int
  trace : List Call
  deriving DecidableEq, Repr

/-- Result of one statement: control goes on with a value, or the run is over. -/
inductive Step (α : Type)
  | next (a : α)
  | stop (o : Outcome)

/-- Computations of the binding: they read the `OS` and thread the `State`. -/
def M (α : Type) : Type := OS → State → Step α × State

/-- A statement that only yields a value. -/
def M.pure {α : Type} (a : α) : M α := fun _ s => (.next a, s)

/-- Sequencing: the rest of the body runs only when the first statement goes on. -/
def M.bind {α β : Type} (m : M α) (f : α → M β) : M β := fun os s =>
  match m os s with
  | (.next a, s1) => f a os s1
  | (.stop o, s1) => (.stop o, s1)

instance : Monad M where
  pure := M.pure
  bind := M.bind

/-- Append a call to the trace. -/
def State.log (s : State) (c : Call) : State := { s with trace := s.trace ++ [c] }

/-- Everything observable about a finished run. -/
structure Result where
  outcome : Outcome
  trace : List Call
  deriving DecidableEq, Repr

/-- Run a method body against an operating system. -/
def run (os : OS) (m : M VALUE) : Result :=
  match m os { errno := os.errno, trace := [] } with
  | (.next v, s) => { outcome := .returned v, trace := s.trace }
  | (.stop o, s) => { outcome := o, trace := s.trace }

/-! ## Primitives -/

/-- The `StringValuePtr(v)` of ruby.h: the bytes of a String; a value that is not a String
raises `TypeError`. -/
def StringValuePtr (v : VALUE) : M String := fun _ s =>
  match v with
  | .string bytes => (.next bytes, s.log (.StringValuePtr v))
  | _ => (.stop (.raised .TypeError), s.log (.StringValuePtr v))

/-- The `vfork()` of unistd.h. -/
def vfork : M Int := fun os s =>
  if os.vfork_ret < 0 then
    (.next os.vfork_ret, { (s.log .vfork) with errno := os.vfork_errno })
  else
    (.next os.vfork_ret, s.log .vfork)

/-- The `execvp(file, argv)` of unistd.h. -/
def execvp (file : Option String) (argv : CArgv) : M Int := fun os s =>
  match os.execvp file argv with
  | none => (.stop .replaced, s.log (.execvp file argv))
  | some e => (.next (-1), { (s.log (.execvp file argv)) with errno := e })

/-- The `_exit(status)` of unistd.h: it does not return. -/
def _exit {α : Type} (status : Int) : M α := fun _ s =>
  (.stop (.exited status), s.log (._exit status))

/-- The `rb_sys_fail(mesg)` of ruby.h: raises the `SystemCallError` for the current `errno`;
it does not return. -/
def rb_sys_fail {α : Type} (mesg : String) : M α := fun _ s =>
  (.stop (.raised (.SystemCallError s.errno mesg)), s.log (.rb_sys_fail mesg))

/-- The assignment `errno = e`. -/
def set_errno (e : Int) : M Unit := fun _ s => (.next (), { s with errno := e })

/-- The `SYM2ID(x)` of ruby.h: a macro on the word of `x`; it never raises. -/
def SYM2ID (x : VALUE) : M ID := fun os s => (.next (os.SYM2ID x), s)

/-- The global `environ`. -/
def environ : M (List String) := fun os s => (.next os.environ, s)

/-- The test `#ifdef POSIX_SPAWN_USEVFORK`, giving the flag when it is defined. -/
def ifdef_POSIX_SPAWN_USEVFORK : M (Option Int) := fun os s =>
  (.next os.POSIX_SPAWN_USEVFORK, s)

/-- The `posix_spawn_file_actions_init(&fops)` of spawn.h. -/
def posix_spawn_file_actions_init : M posix_spawn_file_actions_t := fun _ s =>
  (.next [], s.log .posix_spawn_file_actions_init)

/-- The `posix_spawn_file_actions_addclose(fops, fd)` of spawn.h. -/
def posix_spawn_file_actions_addclose (fops : posix_spawn_file_actions_t) (fd : Int) :
    M posix_spawn_file_actions_t := fun _ s =>
  (.next (fops ++ [.addclose fd]), s.log (.posix_spawn_file_actions_addclose fd))

/-- The `posix_spawn_file_actions_addopen(fops, fd, path, oflag, mode)` of spawn.h. -/
def posix_spawn_file_actions_addopen (fops : posix_spawn_file_actions_t) (fd : Int)
    (path : String) (oflag : Int) (mode : Int) : M posix_spawn_file_actions_t := fun _ s =>
  (.next (fops ++ [.addopen fd path oflag mode]),
    s.log (.posix_spawn_file_actions_addopen fd path oflag mode))

/-- The `posix_spawn_file_actions_destroy(&fops)` of spawn.h. -/
def posix_spawn_file_actions_destroy (_fops : posix_spawn_file_actions_t) : M Unit :=
  fun _ s => (.next (), s.log .posix_spawn_file_actions_destroy)

/-- The `posix_spawnattr_init(&attr)` of spawn.h. -/
def posix_spawnattr_init : M posix_spawnattr_t := fun _ s =>
  (.next { flags := 0 }, s.log .posix_spawnattr_init)

/-- The `posix_spawnattr_setflags(&attr, flags)` of spawn.h. -/
def posix_spawnattr_setflags (_attr : posix_spawnattr_t) (flags : Int) : M posix_spawnattr_t :=
  fun _ s => (.next { flags := flags }, s.log (.posix_spawnattr_setflags flags))

/-- The `posix_spawnattr_destroy(&attr)` of spawn.h. -/
def posix_spawnattr_destroy (_attr : posix_spawnattr_t) : M Unit :=
  fun _ s => (.next (), s.log .posix_spawnattr_destroy)

/-- The `posix_spawnp(&pid, file, &fops, &attr, argv, envp)` of spawn.h; gives the status
and the content of `pid`. -/
def posix_spawnp (file : Option String) (fops : posix_spawn_file_actions_t)
    (attr : posix_spawnattr_t) (argv : CArgv) (envp : List String) : M (Int × Int) :=
  fun os s =>
    (.next (os.posix_spawnp file fops attr argv envp),
      s.log (.posix_spawnp file fops attr argv envp))

/-- The `rb_hash_foreach(hash, func, arg)` of ruby.h: calls `func` on every entry in
iteration order; `ST_STOP` ends the iteration, `ST_CONTINUE` goes on, and `ST_DELETE` goes on
after removing the entry from the hash. -/
def rb_hash_foreach {σ : Type} (func : VALUE → VALUE → σ → M (st_retval × σ)) :
    Hash → σ → M σ
  | [], arg => pure arg
  | (key, val) :: rest, arg => do
    let (res, arg) ← func key val arg
    match res with
    | .ST_STOP => pure arg
    | .ST_CONTINUE => rb_hash_foreach func rest arg
    | .ST_DELETE => rb_hash_foreach func rest arg

/-! ## The functions of fastspawn.c -/

/-- The loop `for(i = 0; i < argc; i++) cargv[i] = StringValuePtr(RARRAY_PTR(argv)[i]);`
shared by both methods, with `n = argc - i` iterations left. -/
def fill_cargv (argv : List VALUE) : Nat → Nat → CArgv → M CArgv
  | 0, _, cargv => pure cargv
  | n + 1, i, cargv => do
    let p ← StringValuePtr (argv.getD i .nil)
    fill_cargv argv n (i + 1) (cargv.set i (some p))

/-- The `rb_fastspawn_vspawn(self, env, argv, options)` of fastspawn.c.  The parameter
`argv` is the content of the Ruby Array, and `argc`, its length, is a natural number: an
Array too long for `int` could not be held in the stack array `cargv` anyway. -/
def rb_fastspawn_vspawn (_self : VALUE) (_env : Hash) (argv : List VALUE) (_options : Hash) :
    M VALUE := do
  let argc := argv.length
  let cargv : CArgv := List.replicate (argc + 1) none
  let cargv := cargv.set argc none
  let cargv ← fill_cargv argv argc 0 cargv
  let pid ← vfork
  if pid < 0 then
    rb_sys_fail "vfork"
  if pid = 0 then
    let _ ← execvp (cargv.at 0) cargv
    _exit 1
  return INT2FIX pid

/-- The `fastspawn_file_actions_addclose_iter(key, val, fops)` of fastspawn.c. -/
def fastspawn_file_actions_addclose_iter (key val : VALUE) (fops : posix_spawn_file_actions_t) :
    M (st_retval × posix_spawn_file_actions_t) := do
  if (← SYM2ID val) ≠ rb_intern "close" then
    pure (.ST_CONTINUE, fops)
  else
    let _res := st_retval.ST_CONTINUE
    match TYPE key with
    | .T_SYMBOL => do
      let id ← SYM2ID key
      let fd : Option Int :=
        if id = rb_intern "in" then some 0
        else if id = rb_intern "out" then some 1
        else if id = rb_intern "err" then some 2
        else none
      match fd with
      | none => pure (.ST_CONTINUE, fops)
      | some fd => do
        let fops ← posix_spawn_file_actions_addclose fops fd
        let _res := st_retval.ST_DELETE
        pure (.ST_CONTINUE, fops)
    | _ => pure (.ST_CONTINUE, fops)

/-- The `fastspawn_file_actions_addclose(fops, options)` of fastspawn.c. -/
def fastspawn_file_actions_addclose (fops : posix_spawn_file_actions_t) (options : Hash) :
    M posix_spawn_file_actions_t :=
  rb_hash_foreach fastspawn_file_actions_addclose_iter options fops

/-- The `rb_fastspawn_pspawn(self, env, argv, options)` of fastspawn.c.  The parameter
`options` is the content of the Ruby Hash.  The C code ignores the return values of the
spawn.h calls that build and release the file actions and the attributes; the model takes
them on their success path. -/
def rb_fastspawn_pspawn (_self : VALUE) (_env : Hash) (argv : List VALUE) (options : Hash) :
    M VALUE := do
  let argc := argv.length
  let cargv : CArgv := List.replicate (argc + 1) none
  let cargv := cargv.set argc none
  let cargv ← fill_cargv argv argc 0 cargv
  let fops ← posix_spawn_file_actions_init
  let fops ← fastspawn_file_actions_addclose fops options
  let fops ← posix_spawn_file_actions_addopen fops 2 "/dev/null" O_WRONLY 0
  let attr ← posix_spawnattr_init
  let attr ←
    match (← ifdef_POSIX_SPAWN_USEVFORK) with
    | some flag => posix_spawnattr_setflags attr flag
    | none => pure attr
  let (ret, pid) ← posix_spawnp (cargv.at 0) fops attr cargv (← environ)
  posix_spawn_file_actions_destroy fops
  posix_spawnattr_destroy attr
  if ret ≠ 0 then
    set_errno ret
    rb_sys_fail "posix_spawnp"
  return INT2FIX pid

/-! ## Observing a run -/

/-- The arguments of one `posix_spawnp` call. -/
structure SpawnCall where
  file : Option String
  fops : posix_spawn_file_actions_t
  attr : posix_spawnattr_t
  argv : CArgv
  envp : List String
  deriving DecidableEq, Repr

/-- The `posix_spawnp` calls of a trace, in order. -/
def spawn_calls : List Call → List SpawnCall
  | [] => []
  | .posix_spawnp file fops attr argv envp :: t =>
    { file := file, fops := fops, attr := attr, argv := argv, envp := envp } :: spawn_calls t
  | _ :: t => spawn_calls t

/-- The `execvp` calls of a trace, in order, as pairs of file name and vector. -/
def exec_calls : List Call → List (Option String × CArgv)
  | [] => []
  | .execvp file argv :: t => (file, argv) :: exec_calls t
  | _ :: t => exec_calls t

/-- Calls that create a process or try to execute a command. -/
def Call.spawns : Call → Bool
  | .vfork => true
  | .execvp _ _ => true
  | .posix_spawnp _ _ _ _ _ => true
  | _ => false

/-- A run that reports a failure to the caller without having created a process or tried
to execute a command. -/
def Result.fails_without_spawning (r : Result) : Bool :=
  (match r.outcome with
    | .raised _ => true
    | _ => false) && r.trace.all (fun c => !c.spawns)

/-- A run that reports a failure to the caller. -/
def Result.failed (r : Result) : Prop := ∃ e, r.outcome = .raised e

/-- Keys the interface documents as descriptor selectors: the symbols for the three
standard streams, and raw non-negative descriptor numbers. -/
def recognized_key (key : VALUE) : Prop :=
  key = .symbol "in" ∨ key = .symbol "out" ∨ key = .symbol "err" ∨
    ∃ n : Int, 0 ≤ n ∧ key = .fixnum n

/-! ## Closed forms of the runs -/

/-- Descriptors the iterator adds a close action for when it sees one entry. -/
def entry_fds (os : OS) (key val : VALUE) : List Int :=
  if os.SYM2ID val = rb_intern "close" then
    if key = .symbol "in" then [0]
    else if key = .symbol "out" then [1]
    else if key = .symbol "err" then [2]
    else []
  else []

/-- Descriptors closed for a whole option hash, in iteration order. -/
def closed_fds (os : OS) : Hash → List Int
  | [] => []
  | (key, val) :: rest => entry_fds os key val ++ closed_fds os rest

/-- The marshalled vector of a list of strings. -/
def marshalled (args : List String) : CArgv := args.map some ++ [none]

/-- The `StringValuePtr` calls marshalling makes. -/
def marshal_calls (args : List String) : List Call :=
  args.map (fun a => Call.StringValuePtr (.string a))

/-- File actions `rb_fastspawn_pspawn` builds for an option hash. -/
def built_fops (os : OS) (options : Hash) : posix_spawn_file_actions_t :=
  (closed_fds os options).map FileAction.addclose ++ [.addopen 2 "/dev/null" O_WRONLY 0]

/-- Spawn attributes `rb_fastspawn_pspawn` builds on a platform. -/
def built_attr (os : OS) : posix_spawnattr_t :=
  match os.POSIX_SPAWN_USEVFORK with
  | some flag => { flags := flag }
  | none => { flags := 0 }

/-- Calls that set up the attributes on a platform. -/
def attr_calls (os : OS) : List Call :=
  match os.POSIX_SPAWN_USEVFORK with
  | some flag => [.posix_spawnattr_init, .posix_spawnattr_setflags flag]
  | none => [.posix_spawnattr_init]

/-- The `posix_spawnp` call `rb_fastspawn_pspawn` makes for strings `args`. -/
def built_call (os : OS) (args : List String) (options : Hash) : SpawnCall :=
  { file := args.head?, fops := built_fops os options, attr := built_attr os,
    argv := marshalled args, envp := os.environ }

/-- What the operating system answers to a `posix_spawnp` call: status and pid. -/
def OS.answer (os : OS) (c : SpawnCall) : Int × Int :=
  os.posix_spawnp c.file c.fops c.attr c.argv c.envp

/-- A `SpawnCall` as the trace records it. -/
def SpawnCall.toCall (c : SpawnCall) : Call :=
  .posix_spawnp c.file c.fops c.attr c.argv c.envp

/-- Calls `rb_fastspawn_pspawn` makes up to and including the release of its resources. -/
def pspawn_calls (os : OS) (args : List String) (options : Hash) : List Call :=
  marshal_calls args ++ [.posix_spawn_file_actions_init] ++
    (closed_fds os options).map Call.posix_spawn_file_actions_addclose ++
    [.posix_spawn_file_actions_addopen 2 "/dev/null" O_WRONLY 0] ++ attr_calls os ++
    [(built_call os args options).toCall, .posix_spawn_file_actions_destroy,
      .posix_spawnattr_destroy]

/-- The run of `rb_fastspawn_vspawn` on strings `args`, spelled out by the value `vfork`
returns and by the answer of `execvp`. -/
def vspawn_result (os : OS) (args : List String) : Result :=
  if os.vfork_ret < 0 then
    { outcome := .raised (.SystemCallError os.vfork_errno "vfork"),
      trace := marshal_calls args ++ [.vfork, .rb_sys_fail "vfork"] }
  else if os.vfork_ret = 0 then
    match os.execvp args.head? (marshalled args) with
    | none =>
      { outcome := .replaced,
        trace := marshal_calls args ++ [.vfork, .execvp args.head? (marshalled args)] }
    | some _ =>
      { outcome := .exited 1,
        trace := marshal_calls args ++
          [.vfork, .execvp args.head? (marshalled args), ._exit 1] }
  else
    { outcome := .returned (INT2FIX os.vfork_ret), trace := marshal_calls args ++ [.vfork] }

/-- Calls `rb_fastspawn_pspawn` makes before it calls `posix_spawnp`. -/
def pspawn_setup (os : OS) (args : List String) (options : Hash) : List Call :=
  marshal_calls args ++ [.posix_spawn_file_actions_init] ++
    (closed_fds os options).map Call.posix_spawn_file_actions_addclose ++
    [.posix_spawn_file_actions_addopen 2 "/dev/null" O_WRONLY 0] ++ attr_calls os

/-! ## Sample inputs -/

/-- A sample system: a 64-bit runtime in which `close` has the identifier 8017; `vfork`
returns `ret`, `posix_spawnp` returns `status` and leaves the pid 4242, and `execvp`
replaces the image exactly when the file is `true`. -/
def sample_os (ret status : Int) : OS where
  long_bits := 64
  rb_id2name := fun k => if k = 8017 then some "close" else none
  address := fun _ => 140737488355328
  errno := 0
  environ := ["PATH=/bin:/usr/bin"]
  POSIX_SPAWN_USEVFORK := some 64
  vfork_ret := ret
  vfork_errno := 11
  execvp := fun file _ => if file = some "true" then none else some 14
  posix_spawnp := fun _ _ _ _ _ => (status, 4242)

/-! ## Closed-form lemmas -/

theorem bind_apply {α β : Type} (m : M α) (f : α → M β) (os : OS) (s : State) :
    (m >>= f) os s =
      (match m os s with
      | (.next a, s1) => f a os s1
      | (.stop o, s1) => (.stop o, s1)) := rfl

theorem pure_apply {α : Type} (a : α) (os : OS) (s : State) :
    (pure a : M α) os s = (.next a, s) := rfl

theorem fill_cargv_strings (os : OS) (todo : List String) :
    ∀ (done : List String) (s : State),
      fill_cargv ((done ++ todo).map .string) todo.length done.length
          (done.map some ++ List.replicate (todo.length + 1) none) os s
        = (.next (marshalled (done ++ todo)),
            { s with trace := s.trace ++ marshal_calls todo }) := by
  induction todo with
  | nil =>
    intro done s
    simp [fill_cargv, pure_apply, marshalled, marshal_calls, List.replicate]
  | cons a t ih =>
    intro done s
    have hget : ((done ++ a :: t).map VALUE.string).getD done.length VALUE.nil
        = VALUE.string a := by
      rw [List.map_append, List.getD_append_right _ _ _ _ (by simp)]
      simp
    have hset : (done.map some ++ List.replicate (t.length + 1 + 1) none).set done.length
        (some a) = (done ++ [a]).map some ++ List.replicate (t.length + 1) none := by
      rw [List.set_append_right _ _ (by simp)]
      simp [List.replicate_succ]
    have ih2 := ih (done ++ [a]) (s.log (.StringValuePtr (.string a)))
    simp only [List.append_assoc, List.singleton_append, List.length_append,
      List.length_singleton] at ih2
    simp only [List.length_cons, fill_cargv, bind_apply, hget, StringValuePtr, hset, ih2]
    simp [State.log, marshal_calls]

theorem sym2id_symbol (os : OS) (name : String) :
    os.SYM2ID (.symbol name) = .interned name := rfl

theorem iter_closed_form (key val : VALUE) (fops : posix_spawn_file_actions_t) (os : OS)
    (s : State) :
    fastspawn_file_actions_addclose_iter key val fops os s
      = (.next (.ST_CONTINUE, fops ++ (entry_fds os key val).map FileAction.addclose),
          { s with trace := s.trace ++
              (entry_fds os key val).map Call.posix_spawn_file_actions_addclose }) := by
  unfold fastspawn_file_actions_addclose_iter entry_fds
  by_cases hv : os.SYM2ID val = rb_intern "close"
  · cases key with
    | nil => simp [SYM2ID, hv, TYPE, bind_apply, pure_apply]
    | fixnum n => simp [SYM2ID, hv, TYPE, bind_apply, pure_apply]
    | string b => simp [SYM2ID, hv, TYPE, bind_apply, pure_apply]
    | symbol name =>
      by_cases h0 : name = "in"
      · subst h0
        simp [SYM2ID, sym2id_symbol, hv, rb_intern, TYPE, bind_apply, pure_apply,
          posix_spawn_file_actions_addclose, State.log]
      · by_cases h1 : name = "out"
        · subst h1
          simp [SYM2ID, sym2id_symbol, hv, rb_intern, TYPE, bind_apply, pure_apply,
            posix_spawn_file_actions_addclose, State.log]
        · by_cases h2 : name = "err"
          · subst h2
            simp [SYM2ID, sym2id_symbol, hv, rb_intern, TYPE, bind_apply, pure_apply,
              posix_spawn_file_actions_addclose, State.log]
          · simp [SYM2ID, sym2id_symbol, hv, rb_intern, TYPE, bind_apply, pure_apply, h0, h1,
              h2]
  · simp [SYM2ID, hv, bind_apply, pure_apply]

theorem addclose_closed_form (os : OS) (options : Hash) :
    ∀ (fops : posix_spawn_file_actions_t) (s : State),
      fastspawn_file_actions_addclose fops options os s
        = (.next (fops ++ (closed_fds os options).map FileAction.addclose),
            { s with trace := s.trace ++
                (closed_fds os options).map Call.posix_spawn_file_actions_addclose }) := by
  unfold fastspawn_file_actions_addclose
  induction options with
  | nil =>
    intro fops s
    simp [rb_hash_foreach, pure_apply, closed_fds]
  | cons e rest ih =>
    intro fops s
    obtain ⟨key, val⟩ := e
    simp only [rb_hash_foreach, bind_apply, iter_closed_form, ih]
    simp [closed_fds]

theorem fill_cargv_all (os : OS) (args : List String) (s : State) :
    fill_cargv (args.map .string) args.length 0 (List.replicate (args.length + 1) none) os s
      = (.next (marshalled args), { s with trace := s.trace ++ marshal_calls args }) := by
  have h := fill_cargv_strings os args [] s
  simpa using h

theorem marshalled_at_zero (args : List String) : (marshalled args).at 0 = args.head? := by
  cases args <;> simp [marshalled, CArgv.at]

theorem pspawn_closed_form (os : OS) (self : VALUE) (env : Hash) (args : List String)
    (options : Hash) :
    run os (rb_fastspawn_pspawn self env (args.map .string) options) =
      if (os.answer (built_call os args options)).1 ≠ 0 then
        { outcome := .raised (.SystemCallError (os.answer (built_call os args options)).1
            "posix_spawnp"),
          trace := pspawn_calls os args options ++ [.rb_sys_fail "posix_spawnp"] }
      else
        { outcome := .returned (INT2FIX (os.answer (built_call os args options)).2),
          trace := pspawn_calls os args options } := by
  unfold run rb_fastspawn_pspawn
  cases hflag : os.POSIX_SPAWN_USEVFORK <;>
    by_cases hret : (os.answer (built_call os args options)).1 = 0 <;>
    simp only [OS.answer, built_call, built_fops, built_attr, hflag] at hret <;>
    simp [bind_apply, pure_apply, fill_cargv_all, posix_spawn_file_actions_init,
      addclose_closed_form, posix_spawn_file_actions_addopen, posix_spawnattr_init,
      posix_spawnattr_setflags, ifdef_POSIX_SPAWN_USEVFORK, environ, posix_spawnp,
      marshalled_at_zero, posix_spawn_file_actions_destroy, posix_spawnattr_destroy,
      set_errno, rb_sys_fail, State.log, pspawn_calls, attr_calls, SpawnCall.toCall,
      OS.answer, built_call, built_fops, built_attr, hflag, hret]

theorem vspawn_closed_form (os : OS) (self : VALUE) (env : Hash) (args : List String)
    (options : Hash) :
    run os (rb_fastspawn_vspawn self env (args.map .string) options)
      = vspawn_result os args := by
  unfold run rb_fastspawn_vspawn vspawn_result
  by_cases hneg : os.vfork_ret < 0
  · have hne : os.vfork_ret ≠ 0 := by omega
    simp [bind_apply, pure_apply, fill_cargv_all, vfork, rb_sys_fail, State.log, hneg]
  · by_cases hzero : os.vfork_ret = 0
    · cases hexec : os.execvp args.head? (marshalled args) <;>
        simp [bind_apply, pure_apply, fill_cargv_all, vfork, execvp, _exit, State.log, hzero,
          marshalled_at_zero, hexec]
    · simp [bind_apply, pure_apply, fill_cargv_all, vfork, State.log, hneg, hzero]

/-! ## Facts about traces -/

theorem spawn_calls_append (a b : List Call) :
    spawn_calls (a ++ b) = spawn_calls a ++ spawn_calls b := by
  induction a with
  | nil => rfl
  | cons c t ih => cases c <;> simp [spawn_calls, ih]

theorem exec_calls_append (a b : List Call) :
    exec_calls (a ++ b) = exec_calls a ++ exec_calls b := by
  induction a with
  | nil => rfl
  | cons c t ih => cases c <;> simp [exec_calls, ih]

theorem spawn_calls_marshal (args : List String) : spawn_calls (marshal_calls args) = [] := by
  induction args with
  | nil => rfl
  | cons a t ih => simpa [marshal_calls, spawn_calls] using ih

theorem exec_calls_marshal (args : List String) : exec_calls (marshal_calls args) = [] := by
  induction args with
  | nil => rfl
  | cons a t ih => simpa [marshal_calls, exec_calls] using ih

theorem spawn_calls_addclose (fds : List Int) :
    spawn_calls (fds.map Call.posix_spawn_file_actions_addclose) = [] := by
  induction fds with
  | nil => rfl
  | cons a t ih => simpa [spawn_calls] using ih

theorem spawn_calls_attr (os : OS) : spawn_calls (attr_calls os) = [] := by
  unfold attr_calls
  cases os.POSIX_SPAWN_USEVFORK <;> rfl

theorem pspawn_calls_eq (os : OS) (args : List String) (options : Hash) :
    pspawn_calls os args options = pspawn_setup os args options ++
      [(built_call os args options).toCall, .posix_spawn_file_actions_destroy,
        .posix_spawnattr_destroy] := rfl

theorem spawn_calls_setup (os : OS) (args : List String) (options : Hash) :
    spawn_calls (pspawn_setup os args options) = [] := by
  simp [pspawn_setup, spawn_calls_append, spawn_calls_marshal, spawn_calls_addclose,
    spawn_calls_attr, spawn_calls]

theorem spawn_calls_pspawn (os : OS) (self : VALUE) (env : Hash) (args : List String)
    (options : Hash) :
    spawn_calls (run os (rb_fastspawn_pspawn self env (args.map .string) options)).trace
      = [built_call os args options] := by
  rw [pspawn_closed_form]
  split <;>
    simp [pspawn_calls_eq, spawn_calls_append, spawn_calls_setup, spawn_calls,
      SpawnCall.toCall]

theorem exec_calls_vspawn (os : OS) (self : VALUE) (env : Hash) (args : List String)
    (options : Hash) :
    exec_calls (run os (rb_fastspawn_vspawn self env (args.map .string) options)).trace
      = if os.vfork_ret = 0 then [(args.head?, marshalled args)] else [] := by
  rw [vspawn_closed_form]
  unfold vspawn_result
  by_cases hneg : os.vfork_ret < 0
  · have hne : os.vfork_ret ≠ 0 := by omega
    simp [hneg, hne, exec_calls_append, exec_calls_marshal, exec_calls]
  · by_cases hzero : os.vfork_ret = 0
    · cases hexec : os.execvp args.head? (marshalled args) <;>
        simp [hzero, hexec, exec_calls_append, exec_calls_marshal, exec_calls]
    · simp [hneg, hzero, exec_calls_append, exec_calls_marshal, exec_calls]

/-! ## Facts about the option hash -/

theorem count_entry_fds (os : OS) (name : String) (fd : Int)
    (hsel : (name, fd) ∈ [("in", (0 : Int)), ("out", 1), ("err", 2)]) (key val : VALUE) :
    (entry_fds os key val).count fd
      = if key = VALUE.symbol name ∧ os.SYM2ID val = rb_intern "close" then 1 else 0 := by
  simp only [List.mem_cons, Prod.mk.injEq, List.mem_singleton, List.mem_nil_iff,
    or_false] at hsel
  unfold entry_fds
  rcases hsel with ⟨h1, h2⟩ | ⟨h1, h2⟩ | ⟨h1, h2⟩ <;> subst h1 <;> subst h2 <;>
    by_cases hv : os.SYM2ID val = rb_intern "close" <;>
    by_cases hi : key = VALUE.symbol "in" <;>
    by_cases ho : key = VALUE.symbol "out" <;>
    by_cases he : key = VALUE.symbol "err" <;>
    simp_all

theorem count_closed_fds (os : OS) (name : String) (fd : Int)
    (hsel : (name, fd) ∈ [("in", (0 : Int)), ("out", 1), ("err", 2)]) (options : Hash) :
    (closed_fds os options).count fd
      = options.countP (fun e =>
          decide (e.1 = VALUE.symbol name ∧ os.SYM2ID e.2 = rb_intern "close")) := by
  induction options with
  | nil => rfl
  | cons e rest ih =>
    obtain ⟨key, val⟩ := e
    simp only [closed_fds, List.count_append, count_entry_fds os name fd hsel, ih,
      List.countP_cons]
    by_cases h : key = VALUE.symbol name ∧ os.SYM2ID val = rb_intern "close"
    · simp [h]; omega
    · simp [h]

theorem countP_of_distinct_keys (os : OS) (name : String) (options : Hash)
    (hkeys : (options.map Prod.fst).Nodup)
    (hentry : (VALUE.symbol name, VALUE.symbol "close") ∈ options) :
    options.countP (fun e =>
        decide (e.1 = VALUE.symbol name ∧ os.SYM2ID e.2 = rb_intern "close")) = 1 := by
  induction options with
  | nil => simp at hentry
  | cons e rest ih =>
    simp only [List.map_cons, List.nodup_cons] at hkeys
    obtain ⟨hnot, hrest⟩ := hkeys
    rcases List.mem_cons.mp hentry with hhead | htail
    · subst hhead
      have hzero : rest.countP (fun e =>
          decide (e.1 = VALUE.symbol name ∧ os.SYM2ID e.2 = rb_intern "close")) = 0 := by
        rw [List.countP_eq_zero]
        intro e2 he2 hp
        simp only [decide_eq_true_eq] at hp
        have hin : e2.1 ∈ rest.map Prod.fst := List.mem_map_of_mem Prod.fst he2
        rw [hp.1] at hin
        exact hnot hin
      rw [List.countP_cons, hzero]
      simp [sym2id_symbol, rb_intern]
    · have hkey : e.1 ≠ VALUE.symbol name := by
        intro h
        exact hnot (by rw [h]; exact List.mem_map_of_mem Prod.fst htail)
      rw [List.countP_cons, ih hrest htail]
      simp [hkey]

theorem count_built_fops (os : OS) (fd : Int) (options : Hash) :
    (built_fops os options).count (FileAction.addclose fd)
      = (closed_fds os options).count fd := by
  unfold built_fops
  rw [List.count_append, List.count_map_of_injective _ FileAction.addclose
    (fun a b h => by injection h)]
  simp

theorem closed_fds_ignored (os : OS) (options : Hash)
    (h : ∀ e ∈ options, ¬ recognized_key e.1 ∨ os.SYM2ID e.2 ≠ rb_intern "close") :
    closed_fds os options = [] := by
  induction options with
  | nil => rfl
  | cons e rest ih =>
    obtain ⟨key, val⟩ := e
    have hrest := ih (fun e he => h e (List.mem_cons_of_mem _ he))
    have he := h (key, val) (List.mem_cons_self _ _)
    simp only [closed_fds, hrest, List.append_nil]
    unfold entry_fds
    rcases he with hk | hv
    · simp only [recognized_key, not_or] at hk
      simp [hk.1, hk.2.1, hk.2.2.1]
    · simp only at hv
      simp [hv]

/-- Entries whose key is not a descriptor selector, or whose value `SYM2ID` does not read
as the identifier of `close` (every Symbol other than `:close` is such a value), change
nothing: the run equals the run with the empty Hash, for every array `argv`. -/
theorem entries_ignored (os : OS) (self : VALUE) (env : Hash) (argv : List VALUE)
    (options : Hash)
    (h : ∀ e ∈ options, ¬ recognized_key e.1 ∨ os.SYM2ID e.2 ≠ rb_intern "close") :
    run os (rb_fastspawn_pspawn self env argv options)
      = run os (rb_fastspawn_pspawn self env argv []) := by
  have hfun : ∀ (fops : posix_spawn_file_actions_t) (s : State),
      fastspawn_file_actions_addclose fops options os s
        = fastspawn_file_actions_addclose fops [] os s := by
    intro fops s
    rw [addclose_closed_form, addclose_closed_form, closed_fds_ignored os options h]
    rfl
  unfold run rb_fastspawn_pspawn
  simp only [bind_apply, hfun]

/-! ## Arrays with arbitrary elements -/

theorem fill_cargv_general (os : OS) (argv : List VALUE) :
    ∀ (n i : Nat) (cargv : CArgv) (s : State),
      ∃ t : List Call, spawn_calls t = [] ∧
        ((∃ filled : CArgv, fill_cargv argv n i cargv os s
            = (.next filled, { s with trace := s.trace ++ t })) ∨
          fill_cargv argv n i cargv os s
            = (.stop (.raised .TypeError), { s with trace := s.trace ++ t })) := by
  intro n
  induction n with
  | zero =>
    intro i cargv s
    exact ⟨[], rfl, Or.inl ⟨cargv, by simp [fill_cargv, pure_apply]⟩⟩
  | succ n ih =>
    intro i cargv s
    cases hv : argv.getD i VALUE.nil with
    | string bytes =>
      have hstep : fill_cargv argv (n + 1) i cargv os s
          = fill_cargv argv n (i + 1) (cargv.set i (some bytes)) os
              (s.log (.StringValuePtr (.string bytes))) := by
        simp only [fill_cargv, bind_apply, hv, StringValuePtr]
      obtain ⟨t, ht, hrun⟩ := ih (i + 1) (cargv.set i (some bytes))
        (s.log (.StringValuePtr (.string bytes)))
      refine ⟨Call.StringValuePtr (.string bytes) :: t, by simpa [spawn_calls] using ht, ?_⟩
      rw [hstep]
      rcases hrun with ⟨filled, hfilled⟩ | hstop
      · exact Or.inl ⟨filled, by rw [hfilled]; simp [State.log]⟩
      · exact Or.inr (by rw [hstop]; simp [State.log])
    | nil =>
      exact ⟨[.StringValuePtr .nil], rfl, Or.inr (by
        simp only [fill_cargv, bind_apply, hv, StringValuePtr, State.log])⟩
    | fixnum k =>
      exact ⟨[.StringValuePtr (.fixnum k)], rfl, Or.inr (by
        simp only [fill_cargv, bind_apply, hv, StringValuePtr, State.log])⟩
    | symbol name =>
      exact ⟨[.StringValuePtr (.symbol name)], rfl, Or.inr (by
        simp only [fill_cargv, bind_apply, hv, StringValuePtr, State.log])⟩

theorem spawn_envp_general (os : OS) (self : VALUE) (env : Hash) (argv : List VALUE)
    (options : Hash) :
    (spawn_calls (run os (rb_fastspawn_pspawn self env argv options)).trace).all
        (fun c => decide (c.envp = os.environ)) = true := by
  unfold run rb_fastspawn_pspawn
  obtain ⟨t, ht, hrun⟩ := fill_cargv_general os argv argv.length 0
    (List.replicate (argv.length + 1) none) { errno := os.errno, trace := [] }
  rcases hrun with ⟨filled, hfilled⟩ | hstop
  · cases hflag : os.POSIX_SPAWN_USEVFORK <;>
      by_cases hret : (os.posix_spawnp (filled.at 0) (built_fops os options) (built_attr os)
        filled os.environ).1 = 0 <;>
      simp only [built_fops, built_attr, hflag] at hret <;>
      simp [bind_apply, pure_apply, hfilled, posix_spawn_file_actions_init,
        addclose_closed_form, posix_spawn_file_actions_addopen, posix_spawnattr_init,
        posix_spawnattr_setflags, ifdef_POSIX_SPAWN_USEVFORK, environ, posix_spawnp,
        posix_spawn_file_actions_destroy, posix_spawnattr_destroy, set_errno, rb_sys_fail,
        State.log, hflag, hret, spawn_calls_append, spawn_calls_addclose, spawn_calls, ht]
  · simp [bind_apply, hstop, ht]

/-! ## The claims -/

/-- C1, evaluated on the code: with the option hash `{3 => :close}` the only `posix_spawnp`
call gets a file-action list that holds the baseline open action and nothing else, so no
close action for descriptor 3 is handed to the operating system, although the comment in
the iterator lists raw descriptors among the keys it cares about. -/
theorem raw_descriptor_close_dropped (os : OS) :
    (spawn_calls (run os (rb_fastspawn_pspawn .nil [] [.string "true"]
        [(.fixnum 3, .symbol "close")])).trace).map SpawnCall.fops
      = [[FileAction.addopen 2 "/dev/null" O_WRONLY 0]] ∧
    Call.posix_spawn_file_actions_addclose 3 ∉
      (run os (rb_fastspawn_pspawn .nil [] [.string "true"]
        [(.fixnum 3, .symbol "close")])).trace := by
  have hargs : [VALUE.string "true"] = (["true"] : List String).map VALUE.string := rfl
  have hfds : closed_fds os [(VALUE.fixnum 3, VALUE.symbol "close")] = [] := by
    simp [closed_fds, entry_fds]
  constructor
  · rw [hargs, spawn_calls_pspawn]
    simp [built_call, built_fops, hfds]
  · rw [hargs, pspawn_closed_form]
    split <;>
      simp [pspawn_calls, marshal_calls, hfds, attr_calls, SpawnCall.toCall] <;>
      cases os.POSIX_SPAWN_USEVFORK <;> simp

/-- C2: when the option hash (keys pairwise distinct) has an entry whose value is `:close`
and whose key is `:in`, `:out` or `:err`, `rb_fastspawn_pspawn` calls `posix_spawnp` exactly
once, and the file-action list of that call holds exactly one close action on descriptor
0, 1 or 2 respectively. -/
theorem symbolic_close_once (os : OS) (self : VALUE) (env : Hash) (args : List String)
    (options : Hash) (name : String) (fd : Int)
    (hkeys : (options.map Prod.fst).Nodup)
    (hsel : (name, fd) ∈ [("in", (0 : Int)), ("out", 1), ("err", 2)])
    (hentry : (VALUE.symbol name, VALUE.symbol "close") ∈ options) :
    ∃ c, spawn_calls (run os (rb_fastspawn_pspawn self env (args.map .string) options)).trace
        = [c] ∧
      c.fops.count (FileAction.addclose fd) = 1 := by
  refine ⟨built_call os args options, spawn_calls_pspawn os self env args options, ?_⟩
  show (built_fops os options).count (FileAction.addclose fd) = 1
  rw [count_built_fops, count_closed_fds os name fd hsel]
  exact countP_of_distinct_keys os name options hkeys hentry

/-- Witness of C2: the hash `{:out => :close, :err => :close}` and the selector `:err`. -/
theorem symbolic_close_once_witness :
    (([(VALUE.symbol "out", VALUE.symbol "close"),
        (VALUE.symbol "err", VALUE.symbol "close")] : Hash).map Prod.fst).Nodup ∧
    ("err", (2 : Int)) ∈ [("in", (0 : Int)), ("out", 1), ("err", 2)] ∧
    (VALUE.symbol "err", VALUE.symbol "close") ∈
      ([(VALUE.symbol "out", VALUE.symbol "close"),
        (VALUE.symbol "err", VALUE.symbol "close")] : Hash) ∧
    ∃ c, spawn_calls (run (sample_os 7 0) (rb_fastspawn_pspawn .nil []
        ((["true"] : List String).map .string)
        [(.symbol "out", .symbol "close"), (.symbol "err", .symbol "close")])).trace = [c] ∧
      c.fops.count (FileAction.addclose 2) = 1 :=
  ⟨by decide, by decide, by decide,
    symbolic_close_once (sample_os 7 0) .nil [] ["true"]
      [(.symbol "out", .symbol "close"), (.symbol "err", .symbol "close")] "err" 2
      (by decide) (by decide) (by decide)⟩

/-- C3: for every argument vector and option hash the file-action list handed to
`posix_spawnp` is a run of close actions followed by one open action, the one that opens
`/dev/null` with `O_WRONLY` on descriptor 2; with `{:err => :close}` the list is close 2
then that open, and with `{:out => :close}` it is close 1 then that same open. -/
theorem baseline_open_last (os : OS) (self : VALUE) (env : Hash) (args : List String)
    (options : Hash) :
    (∃ (c : SpawnCall) (fds : List Int),
      spawn_calls (run os (rb_fastspawn_pspawn self env (args.map .string) options)).trace
        = [c] ∧
      c.fops = fds.map FileAction.addclose ++ [.addopen 2 "/dev/null" O_WRONLY 0]) ∧
    (spawn_calls (run os (rb_fastspawn_pspawn self env (args.map .string)
        [(.symbol "err", .symbol "close")])).trace).map SpawnCall.fops
      = [[.addclose 2, .addopen 2 "/dev/null" O_WRONLY 0]] ∧
    (spawn_calls (run os (rb_fastspawn_pspawn self env (args.map .string)
        [(.symbol "out", .symbol "close")])).trace).map SpawnCall.fops
      = [[.addclose 1, .addopen 2 "/dev/null" O_WRONLY 0]] ∧
    (spawn_calls (run os (rb_fastspawn_pspawn self env (args.map .string) [])).trace).map
        SpawnCall.fops
      = [[.addopen 2 "/dev/null" O_WRONLY 0]] := by
  refine ⟨⟨built_call os args options, closed_fds os options,
    spawn_calls_pspawn os self env args options, rfl⟩, ?_, ?_, ?_⟩ <;>
    rw [spawn_calls_pspawn] <;>
    simp [built_call, built_fops, closed_fds, entry_fds, sym2id_symbol, rb_intern]

/-- C4, evaluated on the code: on the sample runtime, where `close` has the identifier
8017, the option hash `{:in => 1026176}` has a value other than `:close`, yet the word of
that Fixnum, 2052353, shifted right by 8 is 8017, so the iterator takes the value for
`:close`: the file actions handed to `posix_spawnp` start with a close of descriptor 0,
and the run differs from the run with the empty hash. -/
theorem fixnum_value_taken_for_close :
    (∀ e ∈ ([(VALUE.symbol "in", VALUE.fixnum 1026176)] : Hash),
      ¬ recognized_key e.1 ∨ e.2 ≠ VALUE.symbol "close") ∧
    (spawn_calls (run (sample_os 7 0) (rb_fastspawn_pspawn .nil [] [.string "true"]
        [(.symbol "in", .fixnum 1026176)])).trace).map SpawnCall.fops
      = [[.addclose 0, .addopen 2 "/dev/null" O_WRONLY 0]] ∧
    (spawn_calls (run (sample_os 7 0) (rb_fastspawn_pspawn .nil [] [.string "true"]
        [])).trace).map SpawnCall.fops
      = [[.addopen 2 "/dev/null" O_WRONLY 0]] ∧
    run (sample_os 7 0) (rb_fastspawn_pspawn .nil [] [.string "true"]
        [(.symbol "in", .fixnum 1026176)])
      ≠ run (sample_os 7 0) (rb_fastspawn_pspawn .nil [] [.string "true"] []) := by
  refine ⟨?_, ?_, ?_, ?_⟩
  · intro e he
    simp only [List.mem_singleton] at he
    subst he
    exact Or.inr (by decide)
  · decide
  · decide
  · decide

/-- Counterexample to C5: on the sample system, where `vfork` and `posix_spawnp` succeed,
both methods called with the empty array create a process and return its pid; neither
reports a failure. -/
theorem empty_argv_not_rejected :
    run (sample_os 4242 0) (rb_fastspawn_vspawn .nil [] [] [])
      = { outcome := .returned (.fixnum 4242), trace := [.vfork] } ∧
    (run (sample_os 4242 0) (rb_fastspawn_vspawn .nil [] [] [])).fails_without_spawning
      = false ∧
    run (sample_os 0 0) (rb_fastspawn_vspawn .nil [] [] [])
      = { outcome := .exited 1, trace := [.vfork, .execvp none [none], ._exit 1] } ∧
    run (sample_os 4242 0) (rb_fastspawn_pspawn .nil [] [] [])
      = { outcome := .returned (.fixnum 4242),
          trace := [.posix_spawn_file_actions_init,
            .posix_spawn_file_actions_addopen 2 "/dev/null" 1 0,
            .posix_spawnattr_init, .posix_spawnattr_setflags 64,
            .posix_spawnp none [.addopen 2 "/dev/null" 1 0] { flags := 64 } [none]
              ["PATH=/bin:/usr/bin"],
            .posix_spawn_file_actions_destroy, .posix_spawnattr_destroy] } ∧
    (run (sample_os 4242 0) (rb_fastspawn_pspawn .nil [] [] [])).fails_without_spawning
      = false := by
  refine ⟨?_, ?_, ?_, ?_, ?_⟩ <;> decide

/-- C5 as amended: for the empty array neither method checks the vector.
`rb_fastspawn_vspawn` marshals nothing and calls `vfork`; it reports a failure exactly when
`vfork` returns a negative value, the parent returns the pid, and the child calls `execvp`
with a null file name and the vector that holds only the null sentinel.
`rb_fastspawn_pspawn` calls `posix_spawnp` once, with a null file name and that same
vector, and reports a failure exactly when the call returns a non-zero status. -/
theorem empty_argv_unchecked (os : OS) (self : VALUE) (env options : Hash) :
    (run os (rb_fastspawn_vspawn self env [] options)).trace.head? = some .vfork ∧
    ((run os (rb_fastspawn_vspawn self env [] options)).failed ↔ os.vfork_ret < 0) ∧
    exec_calls (run os (rb_fastspawn_vspawn self env [] options)).trace
      = (if os.vfork_ret = 0 then [(none, [none])] else []) ∧
    (run os (rb_fastspawn_vspawn self env [] options)).outcome
      = (if os.vfork_ret < 0 then .raised (.SystemCallError os.vfork_errno "vfork")
        else if os.vfork_ret = 0 then
          (if (os.execvp none [none]).isSome then .exited 1 else .replaced)
        else .returned (.fixnum os.vfork_ret)) ∧
    ∃ c, spawn_calls (run os (rb_fastspawn_pspawn self env [] options)).trace = [c] ∧
      c.file = none ∧ c.argv = [none] ∧
      ((run os (rb_fastspawn_pspawn self env [] options)).failed ↔ (os.answer c).1 ≠ 0) := by
  have hv := vspawn_closed_form os self env [] options
  have hx := exec_calls_vspawn os self env [] options
  have hp := pspawn_closed_form os self env [] options
  have hs := spawn_calls_pspawn os self env [] options
  simp only [List.map_nil] at hv hx hp hs
  refine ⟨?_, ?_, ?_, ?_, built_call os [] options, hs, rfl, rfl, ?_⟩
  · rw [hv]
    unfold vspawn_result
    split
    · rfl
    · split
      · split <;> rfl
      · rfl
  · rw [hv]
    unfold vspawn_result Result.failed
    by_cases hneg : os.vfork_ret < 0
    · simp [hneg]
    · by_cases hzero : os.vfork_ret = 0
      · cases hexec : os.execvp ([] : List String).head? (marshalled []) <;>
          simp [hzero, hexec]
      · simp [hneg, hzero]
  · rw [hx]
    rfl
  · rw [hv]
    unfold vspawn_result
    by_cases hneg : os.vfork_ret < 0
    · simp [hneg]
    · by_cases hzero : os.vfork_ret = 0
      · have hm : marshalled [] = [none] := rfl
        cases hexec : os.execvp none [none] <;>
          simp [hzero, hm, hexec]
      · simp [hneg, hzero, INT2FIX]
  · rw [hp]
    unfold Result.failed
    split <;> simp_all

/-- C6: for every argument vector and option hash, `rb_fastspawn_pspawn` calls
`posix_spawnp` once; right after that call it destroys the file actions and then the
attributes; it reports a failure exactly when the status is non-zero, the failure being the
`SystemCallError` with that status as error code and the message `posix_spawnp`, raised
after both destroy calls; with status zero it returns the pid the call produced. -/
theorem pspawn_outcome (os : OS) (self : VALUE) (env : Hash) (args : List String)
    (options : Hash) :
    ∃ (c : SpawnCall) (setup : List Call),
      spawn_calls setup = [] ∧
      (run os (rb_fastspawn_pspawn self env (args.map .string) options)).trace
        = setup ++ [c.toCall, .posix_spawn_file_actions_destroy, .posix_spawnattr_destroy] ++
            (if (os.answer c).1 ≠ 0 then [.rb_sys_fail "posix_spawnp"] else []) ∧
      (run os (rb_fastspawn_pspawn self env (args.map .string) options)).outcome
        = (if (os.answer c).1 ≠ 0 then
            .raised (.SystemCallError (os.answer c).1 "posix_spawnp")
          else .returned (.fixnum (os.answer c).2)) ∧
      ((run os (rb_fastspawn_pspawn self env (args.map .string) options)).failed
        ↔ (os.answer c).1 ≠ 0) := by
  refine ⟨built_call os args options, pspawn_setup os args options,
    spawn_calls_setup os args options, ?_, ?_, ?_⟩ <;>
    rw [pspawn_closed_form] <;>
    by_cases hret : (os.answer (built_call os args options)).1 = 0 <;>
    simp [hret, pspawn_calls_eq, Result.failed, INT2FIX]

/-- C7: for every argument vector, `rb_fastspawn_vspawn` reports a failure exactly when
`vfork` returns a negative value, and the failure is the `SystemCallError` with the `errno`
that `vfork` left and the message `vfork`; when `vfork` returns a positive value the run is
the parent and returns that value as the pid, and the parent makes no `execvp` call, so
its outcome does not depend on what `execvp` does in the child (the run in which `vfork`
returns zero, which ends as a replaced image or as an exit with status 1). -/
theorem vspawn_outcome (os : OS) (self : VALUE) (env : Hash) (args : List String)
    (options : Hash) :
    ((run os (rb_fastspawn_vspawn self env (args.map .string) options)).failed
      ↔ os.vfork_ret < 0) ∧
    (run os (rb_fastspawn_vspawn self env (args.map .string) options)).outcome
      = (if os.vfork_ret < 0 then .raised (.SystemCallError os.vfork_errno "vfork")
        else if 0 < os.vfork_ret then .returned (.fixnum os.vfork_ret)
        else if (os.execvp args.head? (args.map some ++ [none])).isSome then .exited 1
        else .replaced) ∧
    exec_calls (run os (rb_fastspawn_vspawn self env (args.map .string) options)).trace
      = (if os.vfork_ret = 0 then [(args.head?, args.map some ++ [none])] else []) := by
  refine ⟨?_, ?_, exec_calls_vspawn os self env args options⟩
  · rw [vspawn_closed_form]
    unfold vspawn_result Result.failed
    by_cases hneg : os.vfork_ret < 0
    · simp [hneg]
    · by_cases hzero : os.vfork_ret = 0
      · cases hexec : os.execvp args.head? (marshalled args) <;> simp [hzero, hexec]
      · simp [hneg, hzero]
  · rw [vspawn_closed_form]
    unfold vspawn_result
    have hm : marshalled args = args.map some ++ [none] := rfl
    rw [hm]
    by_cases hneg : os.vfork_ret < 0
    · simp [hneg]
    · by_cases hzero : os.vfork_ret = 0
      · cases hexec : os.execvp args.head? (args.map some ++ [none]) <;>
          simp [hzero, hexec]
      · have hpos : 0 < os.vfork_ret := by omega
        simp [hneg, hzero, hpos, INT2FIX]

/-- C8: in the child, that is when `vfork` returns zero, the calls of
`rb_fastspawn_vspawn` are the `StringValuePtr` calls of the marshalling loop, then `vfork`,
then `execvp` on the first string and the marshalled vector, and then nothing more when
`execvp` replaces the image, or `_exit(1)` alone when `execvp` returns; the run ends as a
replaced image or as an exit with status 1, never by returning to or raising in the Ruby
caller. -/
theorem vspawn_child_window (os : OS) (self : VALUE) (env : Hash) (args : List String)
    (options : Hash) (hchild : os.vfork_ret = 0) :
    ∃ steps : List Call,
      (run os (rb_fastspawn_vspawn self env (args.map .string) options)).trace
        = args.map (fun a => Call.StringValuePtr (.string a)) ++ [.vfork] ++ steps ∧
      ((os.execvp args.head? (args.map some ++ [none]) = none ∧
          steps = [.execvp args.head? (args.map some ++ [none])] ∧
          (run os (rb_fastspawn_vspawn self env (args.map .string) options)).outcome
            = .replaced) ∨
        ((os.execvp args.head? (args.map some ++ [none])).isSome = true ∧
          steps = [.execvp args.head? (args.map some ++ [none]), ._exit 1] ∧
          (run os (rb_fastspawn_vspawn self env (args.map .string) options)).outcome
            = .exited 1)) := by
  rw [vspawn_closed_form]
  unfold vspawn_result
  have hm : marshalled args = args.map some ++ [none] := rfl
  rw [hm]
  cases hexec : os.execvp args.head? (args.map some ++ [none]) with
  | none =>
    exact ⟨[.execvp args.head? (args.map some ++ [none])], by simp [hchild, marshal_calls],
      Or.inl ⟨rfl, rfl, by simp [hchild]⟩⟩
  | some e =>
    exact ⟨[.execvp args.head? (args.map some ++ [none]), ._exit 1],
      by simp [hchild, marshal_calls], Or.inr ⟨rfl, rfl, by simp [hchild]⟩⟩

/-- Witness of C8: the child on the sample system with a command that cannot be executed. -/
theorem vspawn_child_window_witness :
    (sample_os 0 0).vfork_ret = 0 ∧
    ∃ steps : List Call,
      (run (sample_os 0 0) (rb_fastspawn_vspawn .nil []
          ((["no-such-command", "-v"] : List String).map .string) [])).trace
        = (["no-such-command", "-v"] : List String).map
            (fun a => Call.StringValuePtr (.string a)) ++ [.vfork] ++ steps ∧
      (((sample_os 0 0).execvp (["no-such-command", "-v"] : List String).head?
            ((["no-such-command", "-v"] : List String).map some ++ [none]) = none ∧
          steps = [.execvp (["no-such-command", "-v"] : List String).head?
            ((["no-such-command", "-v"] : List String).map some ++ [none])] ∧
          (run (sample_os 0 0) (rb_fastspawn_vspawn .nil []
            ((["no-such-command", "-v"] : List String).map .string) [])).outcome
            = .replaced) ∨
        (((sample_os 0 0).execvp (["no-such-command", "-v"] : List String).head?
            ((["no-such-command", "-v"] : List String).map some ++ [none])).isSome = true ∧
          steps = [.execvp (["no-such-command", "-v"] : List String).head?
            ((["no-such-command", "-v"] : List String).map some ++ [none]), ._exit 1] ∧
          (run (sample_os 0 0) (rb_fastspawn_vspawn .nil []
            ((["no-such-command", "-v"] : List String).map .string) [])).outcome
            = .exited 1)) :=
  ⟨rfl, vspawn_child_window (sample_os 0 0) .nil [] ["no-such-command", "-v"] [] rfl⟩

/-- C9: the environment parameter has no effect on either method and the options
parameter has no effect on `rb_fastspawn_vspawn`: runs that differ only in them make the
same calls with the same arguments and end the same way, for every array `argv`; every
`posix_spawnp` call of `rb_fastspawn_pspawn` gets the `environ` of the process as its
environment, whatever the environment parameter is; and for an array of strings there is
exactly one such call. -/
theorem unused_parameters (os : OS) (self : VALUE) (env env2 : Hash) (argv : List VALUE)
    (args : List String) (options options2 : Hash) :
    run os (rb_fastspawn_vspawn self env argv options)
      = run os (rb_fastspawn_vspawn self env2 argv options2) ∧
    run os (rb_fastspawn_pspawn self env argv options)
      = run os (rb_fastspawn_pspawn self env2 argv options) ∧
    (spawn_calls (run os (rb_fastspawn_pspawn self env argv options)).trace).all
        (fun c => decide (c.envp = os.environ)) = true ∧
    (spawn_calls (run os (rb_fastspawn_pspawn self env (args.map .string) options)).trace).map
        SpawnCall.envp
      = [os.environ] := by
  refine ⟨rfl, rfl, spawn_envp_general os self env argv options, ?_⟩
  rw [spawn_calls_pspawn]
  rfl

/-- C10: for every argument vector of length n, the array `rb_fastspawn_vspawn` passes to
`execvp` (in the child, the only run that calls it) and the array `rb_fastspawn_pspawn`
passes to `posix_spawnp` are the same array: it has n + 1 slots, slot i points at the bytes
of the i-th argument for every i below n, slot n is the null pointer, and the file name
passed along with it is slot 0, the first argument of the vector. -/
theorem argument_marshalling (os : OS) (self : VALUE) (env : Hash) (args : List String)
    (options : Hash) :
    ∃ cargv : CArgv,
      exec_calls (run os (rb_fastspawn_vspawn self env (args.map .string) options)).trace
        = (if os.vfork_ret = 0 then [(cargv.at 0, cargv)] else []) ∧
      (spawn_calls (run os (rb_fastspawn_pspawn self env (args.map .string) options)).trace).map
          (fun c => (c.file, c.argv))
        = [(cargv.at 0, cargv)] ∧
      cargv.length = args.length + 1 ∧
      (∀ i : Fin args.length, cargv.at i = some (args.get i)) ∧
      cargv.at args.length = none ∧
      cargv.at 0 = args.head? := by
  refine ⟨marshalled args, ?_, ?_, ?_, ?_, ?_, marshalled_at_zero args⟩
  · rw [exec_calls_vspawn, marshalled_at_zero]
  · rw [spawn_calls_pspawn, marshalled_at_zero]
    rfl
  · simp [marshalled]
  · intro i
    simp [marshalled, CArgv.at, List.getElem?_append_left, i.isLt]
  · simp [marshalled, CArgv.at]

end FastSpawn
